import Mathlib

/-!
Shallow embedding of the InfraWallet cost-client core (AWS, Azure, MongoAtlas
clients) together with proofs about its normalization pipeline.

JavaScript numbers that can be `NaN` are modelled by `JsNum`; JS `undefined`
string values are modelled by `Option String`. All date arithmetic is modelled
in UTC (the moment.js calls in the source parse ISO strings in the server's
local zone; the embedding fixes that zone to UTC).
-/

set_option autoImplicit false

namespace InfraWallet

/-- A JavaScript number restricted to the values this code can produce:
`NaN`, or the exact decimal `mantissa / 10 ^ scale` (every number this
pipeline handles comes from a decimal literal, so decimal fixed point is
exact; it is used instead of `ℚ` so that the kernel can evaluate it). -/
inductive JsNum where
  | nan : JsNum
  | num (mantissa : Int) (scale : Nat) : JsNum
  deriving DecidableEq, Repr

/-- The rational value of a `JsNum` (`none` for `NaN`). -/
def JsNum.val : JsNum → Option ℚ
  | .nan => none
  | .num v s => some ((v : ℚ) / 10 ^ s)

/-- JS `x || 0` on a number: `NaN` and `0` are falsy and give `0`. -/
def JsNum.orZero : JsNum → JsNum
  | .nan => .num 0 0
  | .num v s => if v = 0 then .num 0 0 else .num v s

/-- JS `+` on numbers: `NaN` is absorbing; decimals are added over the
larger scale. -/
def JsNum.add : JsNum → JsNum → JsNum
  | .num a s, .num b t =>
    .num (a * (10 : Int) ^ (max s t - s) + b * (10 : Int) ^ (max s t - t)) (max s t)
  | _, _ => .nan

/-- Value of a list of decimal digit characters. -/
def digitsToNat (ds : List Char) : Nat :=
  ds.foldl (fun a c => a * 10 + (c.toNat - '0'.toNat)) 0

/-! ### Structural string primitives

The core `String` functions (`splitOn`, `trim`, `take`, ...) are defined by
well-founded recursion on byte positions, which the kernel cannot evaluate;
the JS string operations this embedding needs are therefore implemented
structurally over `String.data`. -/

/-- JS `s.split(sep)` for a one-character separator, over char lists. -/
def splitChars (sep : Char) : List Char → List (List Char)
  | [] => [[]]
  | c :: rest =>
    let r := splitChars sep rest
    if c = sep then [] :: r
    else
      match r with
      | h :: t => (c :: h) :: t
      | [] => [[c]]

/-- JS `s.split(sep)` for a one-character separator. -/
def jsSplit (s : String) (sep : Char) : List String :=
  (splitChars sep s.data).map String.mk

def trimChars (cs : List Char) : List Char :=
  ((cs.dropWhile Char.isWhitespace).reverse.dropWhile Char.isWhitespace).reverse

/-- JS `s.trim()`. -/
def jsTrim (s : String) : String := String.mk (trimChars s.data)

def listStarts : List Char → List Char → Bool
  | [], _ => true
  | _ :: _, [] => false
  | p :: ps, c :: cs => p = c && listStarts ps cs

/-- JS `s.startsWith(pat)`. -/
def strStarts (s pat : String) : Bool := listStarts pat.data s.data

def listHasSub (pat : List Char) : List Char → Bool
  | [] => pat.isEmpty
  | c :: rest => listStarts pat (c :: rest) || listHasSub pat rest

/-- JS `s.includes(pat)`. -/
def strIncludes (s pat : String) : Bool := listHasSub pat.data s.data

/-- JS `s.substring(0, n)` / `s.slice(0, n)`. -/
def strTake (s : String) (n : Nat) : String := String.mk (s.data.take n)

/-- JS `s.slice(n)`. -/
def strDrop (s : String) (n : Nat) : String := String.mk (s.data.drop n)

/-- JS `s.toUpperCase()` (ASCII, which is all this code compares). -/
def strUpper (s : String) : String := String.mk (s.data.map Char.toUpper)

/-- JS `array.join(sep)`. -/
def strJoin (sep : String) (l : List String) : String :=
  String.mk (List.intercalate sep.data (l.map String.data))

/-- JS `parseFloat` restricted to the shapes this code feeds it: optional
leading spaces, an optional sign, a decimal literal (`12`, `12.5`, `.5`);
any trailing junk is ignored; anything else is `NaN`. Exponents and
`Infinity` are outside the modelled subset. -/
def parseFloat (s : String) : JsNum :=
  let cs := s.data.dropWhile (fun c => c = ' ')
  let (sgn, cs) : Int × List Char :=
    match cs with
    | '-' :: t => (-1, t)
    | '+' :: t => (1, t)
    | _ => (1, cs)
  let intPart := cs.takeWhile Char.isDigit
  let rest := cs.dropWhile Char.isDigit
  match rest with
  | '.' :: rest2 =>
    let fracPart := rest2.takeWhile Char.isDigit
    if intPart.isEmpty && fracPart.isEmpty then .nan
    else .num (sgn * (digitsToNat (intPart ++ fracPart) : Int)) fracPart.length
  | _ =>
    if intPart.isEmpty then .nan
    else .num (sgn * (digitsToNat intPart : Int)) 0

/-- JS `parseFloat` applied to a possibly-`undefined` value
(`parseFloat(undefined)` is `NaN`). -/
def parseFloatOpt : Option String → JsNum
  | none => .nan
  | some s => parseFloat s

/-- JS `parseInt(s, 10)`: optional leading spaces, optional sign, longest
digit run; `none` models `NaN`. -/
def jsParseInt (s : String) : Option Int :=
  let cs := s.data.dropWhile (fun c => c = ' ')
  let (sgn, cs) : Int × List Char :=
    match cs with
    | '-' :: t => (-1, t)
    | '+' :: t => (1, t)
    | _ => (1, cs)
  let ds := cs.takeWhile Char.isDigit
  if ds.isEmpty then none else some (sgn * (digitsToNat ds : Int))

/-! ## Calendar arithmetic (UTC) -/

def isLeapYear (y : Nat) : Bool :=
  y % 4 = 0 && (y % 100 ≠ 0 || y % 400 = 0)

def daysInMonth (y m : Nat) : Nat :=
  if m = 2 then (if isLeapYear y then 29 else 28)
  else if m = 4 || m = 6 || m = 9 || m = 11 then 30
  else 31

/-- Days since 1970-01-01 of the civil date `y-m-d` (proleptic Gregorian,
valid for the positive years this code handles). -/
def daysFromCivil (y m d : Nat) : Int :=
  let y' : Int := if m ≤ 2 then (y : Int) - 1 else (y : Int)
  let era : Int := y' / 400
  let yoe : Int := y' - era * 400
  let mp : Int := ((m : Int) + 9) % 12
  let doy : Int := (153 * mp + 2) / 5 + (d : Int) - 1
  let doe : Int := yoe * 365 + yoe / 4 - yoe / 100 + doy
  era * 146097 + doe - 719468

/-- Epoch milliseconds of a UTC date-time. -/
def epochMillis (y m d h mi s : Nat) : Int :=
  daysFromCivil y m d * 86400000 + ((h * 3600 + mi * 60 + s : Nat) : Int) * 1000

/-- Two decimal digits as a number, requiring both characters to be digits. -/
def twoDigits (a b : Char) : Option Nat :=
  if a.isDigit && b.isDigit then some (digitsToNat [a, b]) else none

def fourDigits (a b c d : Char) : Option Nat :=
  if a.isDigit && b.isDigit && c.isDigit && d.isDigit then
    some (digitsToNat [a, b, c, d])
  else none

def validYmd (y m d : Nat) : Bool :=
  1 ≤ m && m ≤ 12 && 1 ≤ d && d ≤ daysInMonth y m

/-- moment.js ISO parsing restricted to the forms this code produces:
`YYYY-MM`, `YYYY-MM-DD` and `YYYY-MM-DDTHH:MM:SS`. Returns epoch millis,
`none` for an invalid moment. -/
def parseIsoDate (s : String) : Option Int :=
  match s.toList with
  | [y1, y2, y3, y4, '-', m1, m2] => do
    let y ← fourDigits y1 y2 y3 y4
    let m ← twoDigits m1 m2
    if validYmd y m 1 then some (epochMillis y m 1 0 0 0) else none
  | [y1, y2, y3, y4, '-', m1, m2, '-', d1, d2] => do
    let y ← fourDigits y1 y2 y3 y4
    let m ← twoDigits m1 m2
    let d ← twoDigits d1 d2
    if validYmd y m d then some (epochMillis y m d 0 0 0) else none
  | [y1, y2, y3, y4, '-', m1, m2, '-', d1, d2, 'T', h1, h2, ':', n1, n2, ':', s1, s2] => do
    let y ← fourDigits y1 y2 y3 y4
    let m ← twoDigits m1 m2
    let d ← twoDigits d1 d2
    let h ← twoDigits h1 h2
    let n ← twoDigits n1 n2
    let sec ← twoDigits s1 s2
    if validYmd y m d && h ≤ 23 && n ≤ 59 && sec ≤ 59 then
      some (epochMillis y m d h n sec)
    else none
  | _ => none

/-- moment.js strict parse with format `MM/DD/YYYY`. -/
def parseDateMMDDYYYY (s : String) : Option (Nat × Nat × Nat) :=
  match s.toList with
  | [m1, m2, '/', d1, d2, '/', y1, y2, y3, y4] => do
    let m ← twoDigits m1 m2
    let d ← twoDigits d1 d2
    let y ← fourDigits y1 y2 y3 y4
    if validYmd y m d then some (y, m, d) else none
  | _ => none

def pad2 (n : Nat) : String :=
  if n < 10 then "0" ++ toString n else toString n

/-- moment `a.isBefore(b)`: `false` whenever either moment is invalid. -/
def jsIsBefore (a b : Option Int) : Bool :=
  match a, b with
  | some x, some y => decide (x < y)
  | _, _ => false

/-! ## Insertion-ordered association lists (JS object model) -/

/-- JS object property update: overwrite in place if the key exists,
otherwise append (insertion order preserved, as JS objects do). -/
def setAssoc {α : Type} (l : List (String × α)) (k : String) (v : α) :
    List (String × α) :=
  match l with
  | [] => [(k, v)]
  | (k', v') :: t => if k' = k then (k, v) :: t else (k', v') :: setAssoc t k v

def getAssoc {α : Type} (l : List (String × α)) (k : String) : Option α :=
  match l with
  | [] => none
  | (k', v') :: t => if k' = k then some v' else getAssoc t k

def hasKey {α : Type} (l : List (String × α)) (k : String) : Bool :=
  (getAssoc l k).isSome

/-- Apply `f` to the value stored under `k` (no-op when absent). -/
def updateAssoc {α : Type} (l : List (String × α)) (k : String) (f : α → α) :
    List (String × α) :=
  match l with
  | [] => []
  | (k', v') :: t => if k' = k then (k', f v') :: t else (k', v') :: updateAssoc t k f

/-! ## Shared data model -/

/-- The `reports` property of a `Report`: normally the bucket map, but the
`...tagKeyValues` spread comes after the fixed fields in every materialized
Report literal, so a static tag literally named `reports` replaces the
bucket object with that tag's string value. -/
inductive ReportsField where
  | obj (buckets : List (String × JsNum))
  | str (s : String)
  deriving DecidableEq, Repr

/-- The canonical output record (`Report` in `../service/types`). Static
tags and provider sub-dimensions (`project`, `cluster`) are the dynamic
extra string attributes; a static tag whose key equals one of the fixed
property names overwrites that property instead (see `spreadTags`). -/
structure Report where
  id : String
  name : String
  service : String
  category : String
  provider : String
  reports : ReportsField
  extra : List (String × String)
  deriving DecidableEq, Repr

/-- The slice of a sub-account `Config` the transforms read:
`getString('name')` and `getOptionalStringArray('tags')`. -/
structure SubAccountConfig where
  name : String
  tags : Option (List String)
  deriving DecidableEq, Repr

/-- `CostQuery` from `../service/types`: epoch-millis strings and a
granularity string (compared case-insensitively against MONTHLY/DAILY). -/
structure CostQuery where
  startTime : String
  endTime : String
  granularity : String
  deriving DecidableEq, Repr

/-- A tag parsed from a `"key:value"` string. -/
structure Tag where
  key : String
  value : Option String
  deriving DecidableEq, Repr

/-- Modelled from the spec: the injected category mapping
(`getCategoryByServiceName` lives in `../service/functions`, outside the
given sources); the spec says the category is "looked up via the
service-name-to-category mapping, default bucket if absent". -/
def getCategoryByServiceName (serviceName : String)
    (categoryMappings : List (String × String)) : String :=
  (getAssoc categoryMappings serviceName).getD "Uncategorized"

/-- Modelled from the spec: the `CLOUD_PROVIDER` enum values for AWS and
Azure (`../service/consts` is outside the given sources); the MongoAtlas
client passes the literal string `'MongoAtlas'` itself. -/
def AWS_PROVIDER : String := "AWS"

def AZURE_PROVIDER : String := "Azure"

def MONGO_PROVIDER : String := "MongoAtlas"

/-- `tag.split(':')` followed by `[k, v] = ...; k.trim(); v.trim()`:
when the tag has no `':'`, `v` is `undefined` and `v.trim()` throws. -/
def splitTagKV (tag : String) : Except String (String × String) :=
  match jsSplit tag ':' with
  | k :: v :: _ => .ok (jsTrim k, jsTrim v)
  | _ => .error "TypeError: cannot read trim of undefined"

/-- One `tags?.forEach(...)` assignment into `tagKeyValues`. -/
def tagFoldStep (acc : List (String × String)) (t : String) :
    Except String (List (String × String)) := do
  let kv ← splitTagKV t
  return setAssoc acc kv.1 kv.2

/-- The `tags?.forEach(...)` block shared verbatim by all three
`transformCostsData` implementations, building `tagKeyValues`. -/
def processTags : Option (List String) → Except String (List (String × String))
  | none => .ok []
  | some tags => tags.foldlM tagFoldStep []

/-- One property assignment of the `...tagKeyValues` object spread: a tag
key equal to a fixed `Report` property name overwrites that property (all
tag values are strings, and overwriting `reports` replaces the bucket
object with a string); any other key becomes a dynamic extra attribute. -/
def spreadTagStep (r : Report) (kv : String × String) : Report :=
  if kv.1 = "id" then { r with id := kv.2 }
  else if kv.1 = "name" then { r with name := kv.2 }
  else if kv.1 = "service" then { r with service := kv.2 }
  else if kv.1 = "category" then { r with category := kv.2 }
  else if kv.1 = "provider" then { r with provider := kv.2 }
  else if kv.1 = "reports" then { r with reports := .str kv.2 }
  else { r with extra := setAssoc r.extra kv.1 kv.2 }

/-- The `...tagKeyValues` spread, applied after the fixed fields of every
materialized Report literal (`AwsClient.ts:228`, Azure line 256, MongoAtlas
line 174), property by property in insertion order. -/
def spreadTags (tkv : List (String × String)) (r : Report) : Report :=
  tkv.foldl spreadTagStep r

/-- `accumulator[keyName].reports[period] = v`: the strict-mode property
assignment throws a TypeError when a `reports` tag has replaced the bucket
object with a string primitive (and when the key is absent, which the
transforms' materialization rules out). -/
def writeBucket (acc : List (String × Report)) (keyName period : String)
    (v : JsNum) : Except String (List (String × Report)) :=
  match getAssoc acc keyName with
  | none => .error "TypeError: cannot read properties of undefined"
  | some r =>
    match r.reports with
    | .str _ => .error "TypeError: cannot create property on string"
    | .obj _ =>
      .ok (updateAssoc acc keyName (fun r2 =>
        match r2.reports with
        | .obj m => { r2 with reports := .obj (setAssoc m period v) }
        | .str _ => r2))

/-- The MongoAtlas accumulation
`accumulator[k].reports[p] = (accumulator[k].reports[p] || 0) + amount`:
reading a property of a string primitive yields `undefined` (falsy), but
the subsequent strict-mode assignment throws. -/
def addBucket (acc : List (String × Report)) (keyName billingPeriod : String)
    (amount : JsNum) : Except String (List (String × Report)) :=
  match getAssoc acc keyName with
  | none => .error "TypeError: cannot read properties of undefined"
  | some r =>
    match r.reports with
    | .str _ => .error "TypeError: cannot create property on string"
    | .obj _ =>
      .ok (updateAssoc acc keyName (fun r2 =>
        match r2.reports with
        | .obj m =>
          { r2 with reports := .obj (setAssoc m billingPeriod
              (JsNum.add ((getAssoc m billingPeriod).getD .nan).orZero amount)) }
        | .str _ => r2))

/-- The prefix-strip loop shared by every `convertServiceName`: each
configured prefix is tested against the original name and the last match
replaces the converted name with the sliced-and-trimmed remainder. -/
def stripServicePre (pres : List String) (serviceName : String) : String :=
  pres.foldl
    (fun conv p =>
      if strStarts serviceName p then jsTrim (strDrop serviceName p.length) else conv)
    serviceName

/-- `AwsClient.convertServiceName`. -/
def awsAliases : List (String × String) :=
  [("Elastic Compute Cloud - Compute", "EC2 - Instances"),
   ("Virtual Private Cloud", "VPC (Virtual Private Cloud)"),
   ("Relational Database Service", "RDS (Relational Database Service)"),
   ("Simple Storage Service", "S3 (Simple Storage Service)"),
   ("Managed Streaming for Apache Kafka", "MSK (Managed Streaming for Apache Kafka)"),
   ("Elastic Container Service for Kubernetes", "EKS (Elastic Container Service for Kubernetes)"),
   ("Elastic Container Service", "ECS (Elastic Container Service)"),
   ("EC2 Container Registry (ECR)", "ECR (Elastic Container Registry)"),
   ("Simple Queue Service", "SQS (Simple Queue Service)"),
   ("Simple Notification Service", "SNS (Simple Notification Service)"),
   ("Database Migration Service", "DMS (Database Migration Service)")]

def awsConvertServiceName (serviceName : String) : String :=
  let convertedName := stripServicePre ["Amazon", "AWS"] serviceName
  let convertedName :=
    match getAssoc awsAliases convertedName with
    | some a => a
    | none => convertedName
  AWS_PROVIDER ++ "/" ++ convertedName

/-- `AzureClient.convertServiceName` (no alias table). -/
def azureConvertServiceName (serviceName : String) : String :=
  AZURE_PROVIDER ++ "/" ++ stripServicePre ["Azure"] serviceName

/-- `MongoAtlasClient.convertServiceName` (no alias table). -/
def mongoConvertServiceName (serviceName : String) : String :=
  MONGO_PROVIDER ++ "/" ++ stripServicePre ["Atlas"] serviceName

/-! ## AwsClient.transformCostsData -/

/-- One `Groups` entry of an AWS `ResultsByTime` row: `keys` models
`group.Keys` (`none` = absent/falsy), `metrics` models `group.Metrics`
(outer `none` = `undefined`) holding `UnblendedCost.Amount`
(inner `none` = `undefined`, defaulted by `?? '0.0'`). -/
structure AwsGroup where
  keys : Option (List String)
  metrics : Option (Option String)
  deriving DecidableEq, Repr

/-- One AWS `ResultsByTime` row: `timeStart` models `row.TimePeriod?.Start`. -/
structure AwsRow where
  timeStart : Option String
  groups : Option (List AwsGroup)
  deriving DecidableEq, Repr

/-- The `row.Groups.forEach` body of `AwsClient.transformCostsData`.
`group.Keys ? group.Keys[0] : ''` yields `undefined` for a present-but-empty
`Keys` array, which makes `convertServiceName` throw when the group is new. -/
def awsGroupStep (accountName : String) (period : String)
    (catMap : List (String × String)) (tkv : List (String × String))
    (acc : List (String × Report)) (g : AwsGroup) :
    Except String (List (String × Report)) :=
  let svc? : Option String :=
    match g.keys with
    | none => some ""
    | some [] => none
    | some (k :: _) => some k
  let keyName := accountName ++ "_" ++ svc?.getD "undefined"
  let materialized : Except String (List (String × Report)) :=
    if hasKey acc keyName then .ok acc
    else
      match svc? with
      | none => .error "TypeError: cannot read startsWith of undefined"
      | some svc =>
        .ok (setAssoc acc keyName (spreadTags tkv
          { id := keyName
            name := AWS_PROVIDER ++ "/" ++ accountName
            service := awsConvertServiceName svc
            category := getCategoryByServiceName svc catMap
            provider := AWS_PROVIDER
            reports := .obj []
            extra := [] }))
  match materialized with
  | .error e => .error e
  | .ok acc =>
    match g.metrics with
    | none => .ok acc
    | some amount? => writeBucket acc keyName period (parseFloat (amount?.getD "0.0"))

/-- The body of the `reduce` in `AwsClient.transformCostsData` for one row:
derive the period (an empty or absent `TimePeriod.Start` is falsy and
leaves `'unknown'`), then fold the row's groups. -/
def awsStep (accountName : String) (q : CostQuery)
    (catMap : List (String × String)) (tkv : List (String × String))
    (acc : List (String × Report)) (row : AwsRow) :
    Except String (List (String × Report)) :=
  let period :=
    match row.timeStart with
    | some t =>
      if t ≠ "" then (if strUpper q.granularity = "MONTHLY" then strTake t 7 else t)
      else "unknown"
    | none => "unknown"
  match row.groups with
  | none => .ok acc
  | some gs => gs.foldlM (awsGroupStep accountName period catMap tkv) acc

/-- `AwsClient.transformCostsData`: tag processing, the `reduce`, then
`Object.values`. -/
def awsTransformCostsData (cfg : SubAccountConfig) (q : CostQuery)
    (rows : List AwsRow) (catMap : List (String × String)) :
    Except String (List Report) :=
  match processTags cfg.tags with
  | .error e => .error e
  | .ok tkv =>
    match rows.foldlM (awsStep cfg.name q catMap tkv) [] with
    | .error e => .error e
    | .ok acc => .ok (acc.map (fun p => p.2))

/-! ## AzureClient.transformCostsData -/

/-- `row[1]` of an Azure cost row: a string (`BillingMonth`) or a JSON
number (`UsageDate`). -/
inductive AzDate where
  | str (s : String)
  | num (n : Nat)
  deriving DecidableEq, Repr

/-- The JS value held by the local `date` after the granularity step:
a string, a number, or `null` (the `formatDate` failure value). -/
inductive AzDateVal where
  | str (s : String)
  | num (n : Nat)
  | null
  deriving DecidableEq, Repr

/-- `AzureClient.formatDate` applied to `dateNumber.toString()`. -/
def azFormatDateString (ds : String) : Option String :=
  if ds.length ≠ 8 then none
  else some (strTake ds 4 ++ "-" ++ strTake (strDrop ds 4) 2 ++ "-" ++ strDrop ds 6)

/-- `AzureClient.formatDate` (`toString` also accepts a string input). -/
def azFormatDate : AzDate → Option String
  | .num n => azFormatDateString (toString n)
  | .str s => azFormatDateString s

/-- `moment(date)` on the post-granularity date value: a number is epoch
millis, a string is ISO-parsed, `null` is an invalid moment. -/
def azMoment : AzDateVal → Option Int
  | .str s => parseIsoDate s
  | .num n => some (n : Int)
  | .null => none

/-- JS property-key coercion for `reports[date]`. -/
def azBucketKey : AzDateVal → String
  | .str s => s
  | .num n => toString n
  | .null => "null"

/-- One Azure cost row `[cost, date, serviceName, currency]`; the numeric
`row[0]` is represented by its decimal text, as `parseFloat` receives it. -/
structure AzureRow where
  cost : String
  date : AzDate
  serviceName : String
  deriving DecidableEq, Repr

/-- The body of the `reduce` in `AzureClient.transformCostsData` for one
row. A non-string `date` reaching `date.substring(0, 7)` in the MONTHLY
branch throws. -/
def azureStep (accountName : String) (q : CostQuery)
    (catMap : List (String × String)) (tkv : List (String × String))
    (acc : List (String × Report)) (row : AzureRow) :
    Except String (List (String × Report)) :=
  let gran := strUpper q.granularity
  let dateV : AzDateVal :=
    if gran = "DAILY" then
      match azFormatDate row.date with
      | some s => .str s
      | none => .null
    else
      match row.date with
      | .str s => .str s
      | .num n => .num n
  let keyName := accountName ++ "->" ++ row.serviceName
  let acc :=
    if hasKey acc keyName then acc
    else
      setAssoc acc keyName (spreadTags tkv
        { id := keyName
          name := AZURE_PROVIDER ++ "/" ++ accountName
          service := azureConvertServiceName row.serviceName
          category := getCategoryByServiceName row.serviceName catMap
          provider := AZURE_PROVIDER
          reports := .obj []
          extra := [] })
  if jsIsBefore (azMoment dateV) (jsParseInt q.startTime) then
    .ok acc
  else
    if gran = "MONTHLY" then
      match dateV with
      | .str s => writeBucket acc keyName (strTake s 7) (parseFloat row.cost)
      | .num _ => .error "TypeError: date.substring is not a function"
      | .null => .error "TypeError: cannot read substring of null"
    else
      writeBucket acc keyName (azBucketKey dateV) (parseFloat row.cost)

/-- `AzureClient.transformCostsData`. -/
def azureTransformCostsData (cfg : SubAccountConfig) (q : CostQuery)
    (rows : List AzureRow) (catMap : List (String × String)) :
    Except String (List Report) :=
  match processTags cfg.tags with
  | .error e => .error e
  | .ok tkv =>
    match rows.foldlM (azureStep cfg.name q catMap tkv) [] with
    | .error e => .error e
    | .ok acc => .ok (acc.map (fun p => p.2))

/-! ## MongoAtlasClient.transformCostsData -/

/-- JS `x || d` on a possibly-`undefined` string (empty string is falsy). -/
def jsOrStr (o : Option String) (d : String) : String :=
  match o with
  | some s => if s = "" then d else s
  | none => d

def pad4 (n : Nat) : String :=
  if n < 10 then "000" ++ toString n
  else if n < 100 then "00" ++ toString n
  else if n < 1000 then "0" ++ toString n
  else toString n

/-- `rowData[columnName]` after the `header.forEach` assignments: the last
occurrence of a duplicated column name wins, and a column index beyond the
row's length stores `undefined`. -/
def mongoRowData (header cols : List String) (colName : String) : Option String :=
  ((header.enum.filter (fun p => p.2 = colName)).getLast?).bind
    (fun p => cols.get? p.1)

/-- The body of the `reduce` in `MongoAtlasClient.transformCostsData` for
one CSV line. A missing `Date` column is modelled as an invalid moment. -/
def mongoStep (accountName : String) (q : CostQuery)
    (catMap : List (String × String)) (tkv : List (String × String))
    (header : List String) (acc : List (String × Report)) (line : String) :
    Except String (List (String × Report)) :=
  let columns := jsSplit line ','
  let amount := (parseFloatOpt (mongoRowData header columns "Amount")).orZero
  match (mongoRowData header columns "Date").bind parseDateMMDDYYYY with
  | none => .ok acc
  | some (y, m, d) =>
    let billingPeriod :=
      if strUpper q.granularity = "MONTHLY" then pad4 y ++ "-" ++ pad2 m
      else pad4 y ++ "-" ++ pad2 m ++ "-" ++ pad2 d
    let sku? := mongoRowData header columns "SKU"
    let cluster := jsOrStr (mongoRowData header columns "Cluster") "Unknown"
    let project := jsOrStr (mongoRowData header columns "Project") "Unknown"
    let keyName := accountName ++ "->" ++
      getCategoryByServiceName (sku?.getD "undefined") catMap ++ "->" ++
      project ++ "->" ++ cluster
    let materialized : Except String (List (String × Report)) :=
      if hasKey acc keyName then .ok acc
      else
        match sku? with
        | none => .error "TypeError: cannot read startsWith of undefined"
        | some sku =>
          .ok (setAssoc acc keyName (spreadTags tkv
            { id := keyName
              name := MONGO_PROVIDER ++ "/" ++ accountName
              service := mongoConvertServiceName sku
              category := getCategoryByServiceName sku catMap
              provider := MONGO_PROVIDER
              reports := .obj []
              extra := [("project", project), ("cluster", cluster)] }))
    match materialized with
    | .error e => .error e
    | .ok acc =>
      if jsIsBefore (parseIsoDate billingPeriod) (jsParseInt q.startTime) then
        .ok acc
      else
        addBucket acc keyName billingPeriod amount

/-- `MongoAtlasClient.transformCostsData`: the first line of the combined
text is the CSV header, the remaining lines are folded into the
accumulator. -/
def mongoTransformCostsData (cfg : SubAccountConfig) (q : CostQuery)
    (costResponse : String) (catMap : List (String × String)) :
    Except String (List Report) :=
  match processTags cfg.tags with
  | .error e => .error e
  | .ok tkv =>
    let lines := jsSplit costResponse '\n'
    let header := jsSplit (lines.headD "") ','
    let rows := lines.drop 1
    match rows.foldlM (mongoStep cfg.name q catMap tkv header) [] with
    | .error e => .error e
    | .ok acc => .ok (acc.map (fun p => p.2))

/-! ## MongoAtlasClient.fetchCostsFromCloud CSV filtering -/

/-- The `lines.filter` predicate of `fetchCostsFromCloud` on one line, given
and returning the `foundOrganizationIdLine` flag. -/
def mongoCsvLineStep (found : Bool) (line : String) : Bool × Bool :=
  let trimmedLine := jsTrim line
  if strStarts trimmedLine "Organization ID," then (true, false)
  else if !found then (found, false)
  else (found, trimmedLine ≠ "" && !strIncludes trimmedLine "Credit")

def mongoCsvFilterGo (found : Bool) : List String → List String
  | [] => []
  | line :: rest =>
    let (found', keep) := mongoCsvLineStep found line
    if keep then line :: mongoCsvFilterGo found' rest
    else mongoCsvFilterGo found' rest

/-- The per-invoice CSV filtering of `fetchCostsFromCloud`: split on
newlines, run the stateful filter, re-join. -/
def filterInvoiceCsv (csvText : String) : String :=
  strJoin "\n" (mongoCsvFilterGo false (jsSplit csvText '\n'))

/-- The fan-in of `fetchCostsFromCloud`: each invoice's CSV body is
filtered and the results are joined with newlines in invoice-list order
(`Promise.all` preserves the order of the mapped array). -/
def mongoCombineInvoices (csvBodies : List String) : String :=
  strJoin "\n" (csvBodies.map filterInvoiceCsv)

/-! ## Tag filter construction (AwsClient.fetchCosts / AzureClient.fetchCosts) -/

/-- The AWS Cost Explorer `Expression` shapes this code builds. A tag
clause's values keep the `Option` of `tag.value as string`. -/
inductive AwsExpr where
  | dims (key : String) (values : List String)
  | tagEq (key : String) (values : List (Option String))
  | orE (l : List AwsExpr)
  | andE (l : List AwsExpr)
  deriving Repr

/-- The mandatory base filter of `AwsClient.fetchCosts`. -/
def awsBaseFilter : AwsExpr := .dims "RECORD_TYPE" ["Usage"]

/-- The filter-building prelude of `AwsClient.fetchCosts` (lines 148-164):
no tags leaves the base filter, one tag is a single equality clause, more
tags become an `Or` list; a non-empty tag expression is `And`-combined with
the base filter. -/
def awsBuildFilter (tags : List Tag) : AwsExpr :=
  match tags with
  | [] => awsBaseFilter
  | [t] => .andE [awsBaseFilter, .tagEq t.key [t.value]]
  | ts => .andE [awsBaseFilter, .orE (ts.map (fun t => .tagEq t.key [t.value]))]

/-- The Azure `QueryFilter` shapes this code builds. -/
inductive AzureFilter where
  | tagsIn (name : String) (values : List (Option String))
  | orF (l : List AzureFilter)
  deriving Repr

/-- The filter-building prelude of `AzureClient.fetchCosts` (lines 157-172):
`undefined` when there are no tags. -/
def azureBuildFilter (tags : List Tag) : Option AzureFilter :=
  match tags with
  | [] => none
  | [t] => some (.tagsIn t.key [t.value])
  | ts => some (.orF (ts.map (fun t => .tagsIn t.key [t.value])))

/-! ## AzureClient.fetchDataWithRetry -/

/-- A mocked pipeline response: status, the
`x-ms-ratelimit-microsoft.costmanagement-entity-retry-after` header, and
`bodyAsText`. -/
structure HttpResponse where
  status : Nat
  retryAfterHeader : Option String
  bodyAsText : Option String
  deriving DecidableEq, Repr

/-- The observable outcome of `fetchDataWithRetry`: the returned body text
or thrown message, the seconds slept at each backoff, and the number of
requests sent. The parsed JSON of a 200 body is represented by its text. -/
structure FetchOutcome where
  result : Except String String
  sleeps : List (Option Int)
  attempts : Nat
  deriving Repr

/-- `parseInt(headers.get('x-ms-ratelimit-...-retry-after') || '60', 10)`. -/
def retryAfterSeconds (resp : HttpResponse) : Option Int :=
  jsParseInt (resp.retryAfterHeader.getD "60")

/-- `response.bodyAsText || '{}'` fed to `JSON.parse`. -/
def jsOrEmptyObj (b : Option String) : String :=
  match b with
  | some s => if s = "" then "{}" else s
  | none => "{}"

/-- `new Error(response.bodyAsText as string).message` (`null` stringifies). -/
def jsBodyMessage (b : Option String) : String := b.getD "null"

/-- The `while (retries < maxRetries)` loop of `fetchDataWithRetry`,
with `fuel = maxRetries - retries`; `responses` maps the current `retries`
counter (which equals the attempt index, since it increments exactly once
per loop iteration that continues) to the mocked response. -/
def fetchRetryLoop (responses : Nat → HttpResponse) (fuel retries : Nat)
    (sleeps : List (Option Int)) (attempts : Nat) : FetchOutcome :=
  match fuel with
  | 0 => ⟨.error "Max retries exceeded", sleeps, attempts⟩
  | f + 1 =>
    let resp := responses retries
    if resp.status = 200 then ⟨.ok (jsOrEmptyObj resp.bodyAsText), sleeps, attempts + 1⟩
    else if resp.status = 429 then
      fetchRetryLoop responses f (retries + 1)
        (sleeps ++ [retryAfterSeconds resp]) (attempts + 1)
    else ⟨.error (jsBodyMessage resp.bodyAsText), sleeps, attempts + 1⟩

/-- `AzureClient.fetchDataWithRetry` over a mocked response sequence. -/
def fetchDataWithRetry (responses : Nat → HttpResponse) (maxRetries : Nat) :
    FetchOutcome :=
  fetchRetryLoop responses maxRetries 0 [] 0

/-! ## Concrete fixtures used by the verification theorems

`1712448000000` is `2024-04-07T00:00:00Z` in epoch millis. -/

def cfgProd : SubAccountConfig := { name := "prod", tags := none }

def cfgBadTag : SubAccountConfig := { name := "prod", tags := some ["missingseparator"] }

def qMonthly0 : CostQuery :=
  { startTime := "0", endTime := "1714521600000", granularity := "monthly" }

def qDaily0 : CostQuery :=
  { startTime := "0", endTime := "1714521600000", granularity := "daily" }

def qMonApr7 : CostQuery :=
  { startTime := "1712448000000", endTime := "1714521600000", granularity := "monthly" }

def qMonApr7plus : CostQuery :=
  { startTime := "1712448000001", endTime := "1714521600000", granularity := "monthly" }

def qDayApr7 : CostQuery :=
  { startTime := "1712448000000", endTime := "1714521600000", granularity := "daily" }

def qDayApr7plus : CostQuery :=
  { startTime := "1712448000001", endTime := "1714521600000", granularity := "daily" }

/-- An AWS `ResultsByTime` row with one group for service `SvcX`. -/
def mkAwsRow (t amt : String) : AwsRow :=
  { timeStart := some t, groups := some [{ keys := some ["SvcX"], metrics := some (some amt) }] }

/-- An Azure cost row for service `Svc`. -/
def mkAzureRow (c : String) (d : AzDate) : AzureRow :=
  { cost := c, date := d, serviceName := "Svc" }

/-- The spec's MONTHLY bucketing example as a MongoAtlas combined CSV:
two April rows of one group with amounts 10 and 5. -/
def mongoCsvTwoApril : String :=
  "Date,SKU,Cluster,Project,Amount\n" ++
  "04/05/2024,Atlas Instance,C1,P1,10\n" ++
  "04/28/2024,Atlas Instance,C1,P1,5"

/-- A MongoAtlas combined CSV whose two rows have distinct SKUs but share
category (both unmapped), project and cluster. -/
def mongoCsvTwoSkus : String :=
  "Date,SKU,Cluster,Project,Amount\n" ++
  "04/05/2024,Aaa,C1,P1,1\n" ++
  "04/06/2024,Bbb,C1,P1,2"

/-- A MongoAtlas combined CSV with a single row dated 2024-04-28. -/
def mongoCsvApr28 : String :=
  "Date,SKU,Cluster,Project,Amount\n" ++
  "04/28/2024,Atlas Instance,C1,P1,5"

/-- A MongoAtlas combined CSV with one malformed `Amount` row followed by a
well-formed one. -/
def mongoCsvBadAmount : String :=
  "Date,SKU,Cluster,Project,Amount\n" ++
  "04/05/2024,Atlas Instance,C1,P1,notanum\n" ++
  "04/06/2024,Atlas Instance,C1,P1,7"

/-- A MongoAtlas combined CSV with a single row dated 2024-04-07. -/
def mongoCsvApr7 : String :=
  "Date,SKU,Cluster,Project,Amount\n" ++
  "04/07/2024,Atlas Instance,C1,P1,10"

/-- A raw MongoAtlas invoice CSV: a preamble, the `Organization ID,` line, a
header, a row whose SKU is `Data Transfer` but whose cluster name contains
`Credit`, a normal row, an empty line, and a row whose SKU is `Credit`. -/
def rawInvoiceCsv : String :=
  "MongoDB Invoice\n" ++
  "Organization ID,Org Name\n" ++
  "Date,SKU,Cluster,Amount\n" ++
  "04/05/2024,Data Transfer,Credit Cluster,5\n" ++
  "04/06/2024,Atlas Instance,C1,3\n" ++
  "\n" ++
  "04/07/2024,Credit,C1,2"

def awsRepFix : Report :=
  { id := "prod_SvcX", name := "AWS/prod", service := "AWS/SvcX",
    category := "Uncategorized", provider := "AWS",
    reports := .obj [("2024-04", JsNum.num 10 0)], extra := [] }

def azureRepFix : Report :=
  { id := "prod->Svc", name := "Azure/prod", service := "Azure/Svc",
    category := "Uncategorized", provider := "Azure",
    reports := .obj [("2024-04", JsNum.num 10 0)], extra := [] }

def mongoRepFix : Report :=
  { id := "prod->Uncategorized->P1->C1", name := "MongoAtlas/prod",
    service := "MongoAtlas/Instance", category := "Uncategorized",
    provider := "MongoAtlas", reports := .obj [("2024-04", JsNum.num 15 0)],
    extra := [("project", "P1"), ("cluster", "C1")] }

/-- A sub-account config whose static tag is literally named `id`. -/
def cfgIdTag : SubAccountConfig := { name := "prod", tags := some ["id:X"] }

/-- An AWS `ResultsByTime` row with one group for a chosen service. -/
def mkAwsRowSvc (svc t amt : String) : AwsRow :=
  { timeStart := some t, groups := some [{ keys := some [svc], metrics := some (some amt) }] }

/-- Mocked responses for the retry tests. -/
def resp200 : HttpResponse :=
  { status := 200, retryAfterHeader := none, bodyAsText := some "body" }

def resp429 : HttpResponse :=
  { status := 429, retryAfterHeader := none, bodyAsText := none }

def resp500 : HttpResponse :=
  { status := 500, retryAfterHeader := none, bodyAsText := some "boom" }

/-- Three 429 responses followed by 200s. -/
def respSeq429x3 (i : Nat) : HttpResponse := if i < 3 then resp429 else resp200

/-- Every entry of a transform accumulator stores a `Report` whose `id` is
the key it is stored under. -/
def IdsMatch (acc : List (String × Report)) : Prop :=
  ∀ p ∈ acc, p.2.id = p.1

/-- The keys of a transform accumulator are pairwise distinct (JS object
property names are unique). -/
def KeysNodup (acc : List (String × Report)) : Prop :=
  (acc.map Prod.fst).Nodup

/-- The accumulator invariant maintained by every transform fold. -/
def GoodAcc (acc : List (String × Report)) : Prop :=
  IdsMatch acc ∧ KeysNodup acc

/-! ## Verification theorems -/

/-- Claim C1: with MONTHLY granularity, rows of one group sharing a
year-month bucket accumulate additively for the DB-vendor — MongoAtlas rows
dated 2024-04-05 and 2024-04-28 with amounts 10 and 5 yield bucket
`"2024-04"` = 15 — while for AWS and Azure the cost written last for a
period (here 5, after 10) overwrites any earlier value for that period in
the same group. -/
theorem claim_C1_monthly_bucketing :
    (mongoTransformCostsData cfgProd qMonthly0 mongoCsvTwoApril []).map
        (fun l => l.map (fun r => r.reports)) =
      .ok [ReportsField.obj [("2024-04", JsNum.num 15 0)]] ∧
    (awsTransformCostsData cfgProd qMonthly0
          [mkAwsRow "2024-04-05" "10", mkAwsRow "2024-04-28" "5"] []).map
        (fun l => l.map (fun r => r.reports)) =
      .ok [ReportsField.obj [("2024-04", JsNum.num 5 0)]] ∧
    (azureTransformCostsData cfgProd qMonthly0
          [mkAzureRow "10" (.str "2024-04-05T00:00:00"),
           mkAzureRow "5" (.str "2024-04-28T00:00:00")] []).map
        (fun l => l.map (fun r => r.reports)) =
      .ok [ReportsField.obj [("2024-04", JsNum.num 5 0)]] :=
  ⟨rfl, rfl, rfl⟩

/-- Claim C3 counterexample: `AwsClient.transformCostsData` applies no
startTime clamp at all. A row dated 2024-03-01 — strictly before the query
start 2024-04-07T00:00:00Z (epoch 1712448000000), as the first conjunct
states — still writes its `"2024-03"` bucket, so it does contribute to the
Report's `reports`, contradicting the claim for the AWS provider. -/
theorem claim_C3_counterexample :
    jsIsBefore (parseIsoDate "2024-03-01") (jsParseInt qMonApr7.startTime) = true ∧
    (awsTransformCostsData cfgProd qMonApr7 [mkAwsRow "2024-03-01" "100"] []).map
        (fun l => l.map (fun r => r.reports)) =
      .ok [ReportsField.obj [("2024-03", JsNum.num 100 0)]] :=
  ⟨rfl, rfl⟩

/-- Claim C3 amended: the Azure transform excludes a row whose parsed date
is strictly before `query.startTime` from the `reports` buckets and includes
a row whose date equals it exactly (one millisecond earlier is excluded),
and the MongoAtlas transform applies the same millisecond-boundary clamp to
the formatted billing period (the row date for DAILY, but the month start
for MONTHLY, so a MONTHLY row dated after `startTime` inside the month is
still excluded); the AWS transform applies no clamp — its output does not
depend on `startTime` at all. -/
theorem claim_C3_amended :
    (∀ (cfg : SubAccountConfig) (s s' e g : String) (rows : List AwsRow)
        (m : List (String × String)),
        awsTransformCostsData cfg ⟨s, e, g⟩ rows m =
          awsTransformCostsData cfg ⟨s', e, g⟩ rows m) ∧
    (azureTransformCostsData cfgProd qMonApr7
          [mkAzureRow "7" (.str "2024-04-07T00:00:00")] []).map
        (fun l => l.map (fun r => r.reports)) =
      .ok [ReportsField.obj [("2024-04", JsNum.num 7 0)]] ∧
    (azureTransformCostsData cfgProd qMonApr7plus
          [mkAzureRow "7" (.str "2024-04-07T00:00:00")] []).map
        (fun l => l.map (fun r => r.reports)) =
      .ok [ReportsField.obj []] ∧
    (mongoTransformCostsData cfgProd qDayApr7 mongoCsvApr7 []).map
        (fun l => l.map (fun r => r.reports)) =
      .ok [ReportsField.obj [("2024-04-07", JsNum.num 10 0)]] ∧
    (mongoTransformCostsData cfgProd qDayApr7plus mongoCsvApr7 []).map
        (fun l => l.map (fun r => r.reports)) =
      .ok [ReportsField.obj []] ∧
    (mongoTransformCostsData cfgProd qMonApr7 mongoCsvApr28 []).map
        (fun l => l.map (fun r => r.reports)) =
      .ok [ReportsField.obj []] :=
  ⟨fun _ _ _ _ _ _ _ => rfl, rfl, rfl, rfl, rfl, rfl⟩

/-- Claim C5 (code bug): the invoice-CSV filter drops the preamble up to and
including the `Organization ID,` line, drops empty lines, but discards any
line *containing* the substring `Credit` anywhere — here a row whose SKU
field is `Data Transfer` and whose cluster name is `Credit Cluster` — even
though the code's own comment says only rows whose SKU is `Credit` are
discarded. -/
theorem claim_C5_credit_filter_bug :
    filterInvoiceCsv rawInvoiceCsv =
      "Date,SKU,Cluster,Amount\n04/06/2024,Atlas Instance,C1,3" ∧
    mongoRowData ["Date", "SKU", "Cluster", "Amount"]
        (jsSplit "04/05/2024,Data Transfer,Credit Cluster,5" ',') "SKU" =
      some "Data Transfer" ∧
    strIncludes (jsTrim "04/05/2024,Data Transfer,Credit Cluster,5") "Credit" = true :=
  ⟨rfl, rfl, rfl⟩

/-- Claim C6 (code bug): `formatDate` converts the 8-digit 20240407 to
`"2024-04-07"` and yields `null` for the 7-digit 2024047, but the DAILY
transform never checks for `null`: `moment(null).isBefore(...)` is `false`,
so the malformed row is not skipped and writes its cost 12.5 into the
Report's `reports` under the JS-coerced key `"null"`. -/
theorem claim_C6_null_date_bug :
    azFormatDate (.num 20240407) = some "2024-04-07" ∧
    azFormatDate (.num 2024047) = none ∧
    (azureTransformCostsData cfgProd qDaily0
          [{ cost := "12.5", date := .num 2024047, serviceName := "Azure App Service" }]
          []).map
        (fun l => l.map (fun r => r.reports)) =
      .ok [ReportsField.obj [("null", JsNum.num 125 1)]] :=
  ⟨rfl, rfl, rfl⟩

/-- Claim C9 counterexample: for an AWS row whose `UnblendedCost.Amount` is
the unparsable string `"abc"`, the transform records `NaN` (the raw
`parseFloat` result) in the period bucket, not the zero cost the claim
requires. -/
theorem claim_C9_counterexample :
    (awsTransformCostsData cfgProd qMonthly0 [mkAwsRow "2024-04-10" "abc"] []).map
        (fun l => l.map (fun r => r.reports)) =
      .ok [ReportsField.obj [("2024-04", JsNum.nan)]] ∧
    JsNum.nan ≠ JsNum.num 0 0 :=
  ⟨rfl, by decide⟩

/-- Claim C9 amended: a malformed numeric cost field never raises and never
aborts the batch — the rest of the rows are still transformed — but only
MongoAtlas (`parseFloat(...) || 0`) records a zero cost for the malformed
row; AWS and Azure record the raw `parseFloat` result `NaN` for that
bucket. -/
theorem claim_C9_amended :
    (mongoTransformCostsData cfgProd qDaily0 mongoCsvBadAmount []).map
        (fun l => l.map (fun r => r.reports)) =
      .ok [ReportsField.obj [("2024-04-05", JsNum.num 0 0), ("2024-04-06", JsNum.num 7 0)]] ∧
    (awsTransformCostsData cfgProd qMonthly0
          [mkAwsRow "2024-04-10" "abc", mkAwsRow "2024-05-10" "7"] []).map
        (fun l => l.map (fun r => r.reports)) =
      .ok [ReportsField.obj [("2024-04", JsNum.nan), ("2024-05", JsNum.num 7 0)]] ∧
    (azureTransformCostsData cfgProd qMonthly0
          [mkAzureRow "abc" (.str "2024-04-05T00:00:00"),
           mkAzureRow "7" (.str "2024-05-05T00:00:00")] []).map
        (fun l => l.map (fun r => r.reports)) =
      .ok [ReportsField.obj [("2024-04", JsNum.nan), ("2024-05", JsNum.num 7 0)]] :=
  ⟨rfl, rfl, rfl⟩

/-! ### Splitting and tag-processing lemmas -/

theorem splitChars_ne_nil (sep : Char) : ∀ cs : List Char, splitChars sep cs ≠ []
  | [] => by simp [splitChars]
  | c :: rest => by
    cases hr : splitChars sep rest with
    | nil => exact absurd hr (splitChars_ne_nil sep rest)
    | cons h t => by_cases hc : c = sep <;> simp [splitChars, hr, hc]

theorem jsSplit_length_pos (s : String) (sep : Char) : 1 ≤ (jsSplit s sep).length := by
  have h := splitChars_ne_nil sep s.data
  simp [jsSplit]
  exact List.length_pos.mpr h

/-- A string contains no occurrence of a character exactly when splitting on
that character leaves it in one piece. -/
theorem listHasSub_single_iff_split (sep : Char) :
    ∀ cs : List Char, (listHasSub [sep] cs = false ↔ (splitChars sep cs).length = 1)
  | [] => by simp [listHasSub, splitChars]
  | c :: rest => by
    have ih := listHasSub_single_iff_split sep rest
    by_cases hc : c = sep
    · subst hc
      have hne := splitChars_ne_nil c rest
      simp [listHasSub, listStarts, splitChars, hne]
    · have hc' : ¬ sep = c := fun h => hc h.symm
      cases hr : splitChars sep rest with
      | nil => exact absurd hr (splitChars_ne_nil sep rest)
      | cons h t =>
        rw [hr] at ih
        simp [listHasSub, listStarts, hc, hc', splitChars, hr] at ih ⊢
        simpa using ih

theorem strIncludes_colon_iff (t : String) :
    strIncludes t ":" = false ↔ (jsSplit t ':').length = 1 := by
  have h := listHasSub_single_iff_split ':' t.data
  simpa [strIncludes, jsSplit] using h

theorem splitTagKV_ok_of (t : String) (h : 2 ≤ (jsSplit t ':').length) :
    ∃ kv, splitTagKV t = .ok kv := by
  cases hs : jsSplit t ':' with
  | nil => rw [hs] at h; simp at h
  | cons k rest =>
    cases rest with
    | nil => rw [hs] at h; simp at h
    | cons v rest2 => exact ⟨(jsTrim k, jsTrim v), by simp [splitTagKV, hs]⟩

theorem splitTagKV_error_of (t : String) (h : (jsSplit t ':').length = 1) :
    splitTagKV t = .error "TypeError: cannot read trim of undefined" := by
  cases hs : jsSplit t ':' with
  | nil => rw [hs] at h; simp at h
  | cons k rest =>
    cases rest with
    | nil => simp [splitTagKV, hs]
    | cons v rest2 => rw [hs] at h; simp at h

theorem tagFold_ok (tags : List String) :
    ∀ acc, (∀ t ∈ tags, strIncludes t ":" = true) →
      ∃ kv, tags.foldlM tagFoldStep acc = .ok kv := by
  induction tags with
  | nil => intro acc _; exact ⟨acc, rfl⟩
  | cons t rest ih =>
    intro acc h
    have hlen : 2 ≤ (jsSplit t ':').length := by
      have h1 := jsSplit_length_pos t ':'
      have h2 : ¬ (jsSplit t ':').length = 1 := by
        intro hl
        have := (strIncludes_colon_iff t).mpr hl
        rw [h t (by simp)] at this
        exact absurd this (by simp)
      omega
    obtain ⟨kv, hkv⟩ := splitTagKV_ok_of t hlen
    obtain ⟨kv2, hkv2⟩ := ih (setAssoc acc kv.1 kv.2) (fun u hu => h u (by simp [hu]))
    refine ⟨kv2, ?_⟩
    simp only [List.foldlM_cons, tagFoldStep, hkv]
    exact hkv2

theorem tagFold_error (tags : List String) :
    ∀ acc, (∃ t ∈ tags, strIncludes t ":" = false) →
      tags.foldlM tagFoldStep acc =
        .error "TypeError: cannot read trim of undefined" := by
  induction tags with
  | nil => intro acc h; simp at h
  | cons t rest ih =>
    intro acc h
    by_cases ht : (jsSplit t ':').length = 1
    · have he := splitTagKV_error_of t ht
      simp only [List.foldlM_cons, tagFoldStep, he]
      rfl
    · have hlen : 2 ≤ (jsSplit t ':').length := by
        have h1 := jsSplit_length_pos t ':'
        omega
      obtain ⟨kv, hkv⟩ := splitTagKV_ok_of t hlen
      obtain ⟨u, hu, hul⟩ := h
      have hu' : u ∈ rest := by
        rcases List.mem_cons.mp hu with rfl | h2
        · exact absurd ((strIncludes_colon_iff u).mp hul) ht
        · exact h2
      simp only [List.foldlM_cons, tagFoldStep, hkv, ih _ ⟨u, hu', hul⟩]
      rfl

/-- Claim C2: the Azure fetch-with-retry step returns the parsed body on
HTTP 200; on HTTP 429 it sleeps the header-supplied retry-after seconds
(default 60) and retries, failing with "Max retries exceeded" after at most
5 attempts; any other status fails immediately with the response body as
the message; and three 429s followed by a 200 give exactly three backoff
sleeps and succeed on the fourth attempt. -/
theorem claim_C2_azure_retry :
    (∀ rs : Nat → HttpResponse, (rs 0).status = 200 →
        fetchDataWithRetry rs 5 =
          ⟨.ok (jsOrEmptyObj (rs 0).bodyAsText), [], 1⟩) ∧
    (∀ rs : Nat → HttpResponse, (rs 0).status ≠ 200 → (rs 0).status ≠ 429 →
        fetchDataWithRetry rs 5 =
          ⟨.error (jsBodyMessage (rs 0).bodyAsText), [], 1⟩) ∧
    (∀ rs : Nat → HttpResponse, (∀ i, i < 5 → (rs i).status = 429) →
        fetchDataWithRetry rs 5 =
          ⟨.error "Max retries exceeded",
           [retryAfterSeconds (rs 0), retryAfterSeconds (rs 1), retryAfterSeconds (rs 2),
            retryAfterSeconds (rs 3), retryAfterSeconds (rs 4)], 5⟩) ∧
    (∀ rs : Nat → HttpResponse, (∀ i, i < 3 → (rs i).status = 429) →
        (rs 3).status = 200 →
        fetchDataWithRetry rs 5 =
          ⟨.ok (jsOrEmptyObj (rs 3).bodyAsText),
           [retryAfterSeconds (rs 0), retryAfterSeconds (rs 1),
            retryAfterSeconds (rs 2)], 4⟩) := by
  refine ⟨?_, ?_, ?_, ?_⟩
  · intro rs h
    simp [fetchDataWithRetry, fetchRetryLoop, h]
  · intro rs h1 h2
    simp [fetchDataWithRetry, fetchRetryLoop, h1, h2]
  · intro rs h
    simp [fetchDataWithRetry, fetchRetryLoop,
      h 0 (by omega), h 1 (by omega), h 2 (by omega), h 3 (by omega), h 4 (by omega)]
  · intro rs h h3
    simp [fetchDataWithRetry, fetchRetryLoop,
      h 0 (by omega), h 1 (by omega), h 2 (by omega), h3]

/-- Witness for claim C2 at concrete mocked endpoints. -/
theorem claim_C2_azure_retry_witness :
    fetchDataWithRetry (fun _ => resp200) 5 = ⟨.ok "body", [], 1⟩ ∧
    fetchDataWithRetry (fun _ => resp500) 5 = ⟨.error "boom", [], 1⟩ ∧
    fetchDataWithRetry (fun _ => resp429) 5 =
      ⟨.error "Max retries exceeded",
       [some 60, some 60, some 60, some 60, some 60], 5⟩ ∧
    fetchDataWithRetry respSeq429x3 5 = ⟨.ok "body", [some 60, some 60, some 60], 4⟩ := by
  refine ⟨claim_C2_azure_retry.1 _ rfl,
    claim_C2_azure_retry.2.1 _ (by decide) (by decide), ?_, ?_⟩
  · exact claim_C2_azure_retry.2.2.1 _ (fun i _ => rfl)
  · exact claim_C2_azure_retry.2.2.2 respSeq429x3
      (fun i hi => by interval_cases i <;> rfl) rfl

/-- Claim C4: a parsed tag list of length ≥ 2 always becomes a disjunction
(OR) of per-tag equality clauses, never a conjunction; AWS combines the tag
expression with the mandatory `RECORD_TYPE = Usage` base filter via AND; an
empty tag list yields no tag filter at all. -/
theorem claim_C4_tag_filters :
    (∀ ts : List Tag, 2 ≤ ts.length →
        awsBuildFilter ts =
          .andE [awsBaseFilter, .orE (ts.map (fun t => .tagEq t.key [t.value]))] ∧
        azureBuildFilter ts =
          some (.orF (ts.map (fun t => .tagsIn t.key [t.value])))) ∧
    awsBuildFilter [] = awsBaseFilter ∧
    azureBuildFilter [] = none := by
  refine ⟨?_, rfl, rfl⟩
  intro ts h
  match ts with
  | [] => simp at h
  | [t] => simp at h
  | t1 :: t2 :: rest => exact ⟨rfl, rfl⟩

/-- Witness for claim C4 at a concrete two-tag list. -/
theorem claim_C4_tag_filters_witness :
    awsBuildFilter [⟨"team", some "a"⟩, ⟨"env", some "b"⟩] =
      .andE [awsBaseFilter, .orE [.tagEq "team" [some "a"], .tagEq "env" [some "b"]]] ∧
    azureBuildFilter [⟨"team", some "a"⟩, ⟨"env", some "b"⟩] =
      some (.orF [.tagsIn "team" [some "a"], .tagsIn "env" [some "b"]]) :=
  claim_C4_tag_filters.1 [⟨"team", some "a"⟩, ⟨"env", some "b"⟩] (by decide)

/-- Claim C7: a raw service name whose stripped remainder has an alias-table
entry converts to the alias prefixed `"<provider>/"` (AWS
`"Amazon Simple Storage Service"` gives `"AWS/S3 (Simple Storage Service)"`),
and names without a matching alias pass through unmodified after the prefix
strip, still provider-prefixed. -/
theorem claim_C7_service_alias :
    awsConvertServiceName "Amazon Simple Storage Service" =
      "AWS/S3 (Simple Storage Service)" ∧
    azureConvertServiceName "Azure App Service" = "Azure/App Service" ∧
    (∀ raw a, getAssoc awsAliases (stripServicePre ["Amazon", "AWS"] raw) = some a →
        awsConvertServiceName raw = "AWS/" ++ a) ∧
    (∀ raw, getAssoc awsAliases (stripServicePre ["Amazon", "AWS"] raw) = none →
        awsConvertServiceName raw = "AWS/" ++ stripServicePre ["Amazon", "AWS"] raw) := by
  refine ⟨rfl, rfl, ?_, ?_⟩
  · intro raw a h
    simp [awsConvertServiceName, h, AWS_PROVIDER]
  · intro raw h
    simp [awsConvertServiceName, h, AWS_PROVIDER]

/-- Witness for claim C7: an aliased and a non-aliased AWS service name. -/
theorem claim_C7_service_alias_witness :
    awsConvertServiceName "Amazon Relational Database Service" =
      "AWS/RDS (Relational Database Service)" ∧
    awsConvertServiceName "Amazon SageMaker" = "AWS/SageMaker" :=
  ⟨claim_C7_service_alias.2.2.1 "Amazon Relational Database Service"
      "RDS (Relational Database Service)" rfl,
   claim_C7_service_alias.2.2.2 "Amazon SageMaker" rfl⟩

/-- Claim C10: every configured static tag string must contain a `':'`
separator — tag processing succeeds when all tags split into at least two
pieces, fails with a TypeError when any tag does not, and on such a tag all
three transforms abort before producing any Report. -/
theorem claim_C10_static_tag_separator :
    (∀ tags : List String, (∀ t ∈ tags, strIncludes t ":" = true) →
        ∃ kv, processTags (some tags) = .ok kv) ∧
    (∀ tags : List String, (∃ t ∈ tags, strIncludes t ":" = false) →
        processTags (some tags) = .error "TypeError: cannot read trim of undefined") ∧
    awsTransformCostsData cfgBadTag qMonthly0 [mkAwsRow "2024-04-05" "10"] [] =
      .error "TypeError: cannot read trim of undefined" ∧
    azureTransformCostsData cfgBadTag qMonthly0
        [mkAzureRow "10" (.str "2024-04-07T00:00:00")] [] =
      .error "TypeError: cannot read trim of undefined" ∧
    mongoTransformCostsData cfgBadTag qMonthly0 mongoCsvTwoApril [] =
      .error "TypeError: cannot read trim of undefined" := by
  refine ⟨?_, ?_, rfl, rfl, rfl⟩
  · intro tags h; exact tagFold_ok tags [] h
  · intro tags h; exact tagFold_error tags [] h

/-- Witness for claim C10 at concrete tag lists. -/
theorem claim_C10_static_tag_separator_witness :
    (∃ kv, processTags (some ["team:core", "env:prod"]) = .ok kv) ∧
    processTags (some ["missingseparator"]) =
      .error "TypeError: cannot read trim of undefined" :=
  ⟨claim_C10_static_tag_separator.1 ["team:core", "env:prod"] (by decide),
   claim_C10_static_tag_separator.2.1 ["missingseparator"]
     ⟨"missingseparator", by simp, by decide⟩⟩

/-! ### Accumulator invariants (claim C8) -/

theorem foldlM_except_inv {α β : Type} (P : α → Prop) (f : α → β → Except String α)
    (hf : ∀ a b a', P a → f a b = .ok a' → P a') :
    ∀ (l : List β) (a a' : α), P a → l.foldlM f a = .ok a' → P a' := by
  intro l
  induction l with
  | nil =>
    intro a a' ha h
    simp only [List.foldlM_nil] at h
    cases h
    exact ha
  | cons b t ih =>
    intro a a' ha h
    rw [List.foldlM_cons] at h
    cases hfa : f a b with
    | error e =>
      rw [hfa] at h
      exact Except.noConfusion h
    | ok a1 =>
      rw [hfa] at h
      exact ih a1 a' (hf a b a1 ha hfa) h

theorem mem_setAssoc {α : Type} :
    ∀ {l : List (String × α)} {k : String} {v : α} {p : String × α},
      p ∈ setAssoc l k v → p = (k, v) ∨ p ∈ l
  | [], k, v, p => by
    intro hp
    simp [setAssoc] at hp
    exact Or.inl hp
  | (k', v') :: t, k, v, p => by
    intro hp
    by_cases hk : k' = k
    · rw [setAssoc, if_pos hk] at hp
      rcases List.mem_cons.mp hp with rfl | hp2
      · exact Or.inl rfl
      · exact Or.inr (List.mem_cons_of_mem _ hp2)
    · rw [setAssoc, if_neg hk] at hp
      rcases List.mem_cons.mp hp with rfl | hp2
      · exact Or.inr (List.mem_cons_self _ _)
      · rcases mem_setAssoc hp2 with h | h
        · exact Or.inl h
        · exact Or.inr (List.mem_cons_of_mem _ h)

theorem map_fst_updateAssoc {α : Type} (f : α → α) :
    ∀ (l : List (String × α)) (k : String),
      (updateAssoc l k f).map Prod.fst = l.map Prod.fst
  | [], _ => rfl
  | (k', v') :: t, k => by
    by_cases h : k' = k <;> simp [updateAssoc, h, map_fst_updateAssoc f t k]

theorem hasKey_cons {α : Type} (k' : String) (v' : α) (t : List (String × α)) (k : String) :
    hasKey ((k', v') :: t) k = (k' = k || hasKey t k) := by
  by_cases h : k' = k <;> simp [hasKey, getAssoc, h]

theorem map_fst_setAssoc_haskey {α : Type} :
    ∀ (l : List (String × α)) (k : String) (v : α), hasKey l k = true →
      (setAssoc l k v).map Prod.fst = l.map Prod.fst
  | [], k, v => by simp [hasKey, getAssoc]
  | (k', v') :: t, k, v => by
    intro h
    by_cases hk : k' = k
    · simp [setAssoc, hk]
    · rw [hasKey_cons] at h
      have h' : hasKey t k = true := by
        cases hh : hasKey t k
        · rw [hh] at h; simp [hk] at h
        · rfl
      simp [setAssoc, hk, map_fst_setAssoc_haskey t k v h']

theorem map_fst_setAssoc_fresh {α : Type} :
    ∀ (l : List (String × α)) (k : String) (v : α), hasKey l k = false →
      (setAssoc l k v).map Prod.fst = l.map Prod.fst ++ [k]
  | [], k, v => by simp [setAssoc]
  | (k', v') :: t, k, v => by
    intro h
    rw [hasKey_cons] at h
    have hk : ¬ k' = k := by
      intro hkk
      rw [hkk] at h
      simp at h
    have h' : hasKey t k = false := by
      cases hh : hasKey t k
      · rfl
      · rw [hh] at h; simp at h
    simp [setAssoc, hk, map_fst_setAssoc_fresh t k v h']

theorem not_mem_keys_of_fresh {α : Type} :
    ∀ (l : List (String × α)) (k : String), hasKey l k = false →
      k ∉ l.map Prod.fst
  | [], k => by simp
  | (k', v') :: t, k => by
    intro h
    rw [hasKey_cons] at h
    have hk : ¬ k' = k := by
      intro hkk; rw [hkk] at h; simp at h
    have h' : hasKey t k = false := by
      cases hh : hasKey t k
      · rfl
      · rw [hh] at h; simp at h
    simp only [List.map_cons, List.mem_cons]
    push_neg
    exact ⟨fun hh => hk hh.symm, not_mem_keys_of_fresh t k h'⟩

theorem goodAcc_setAssoc {acc : List (String × Report)} {k : String} {r : Report}
    (hg : GoodAcc acc) (hr : r.id = k) : GoodAcc (setAssoc acc k r) := by
  obtain ⟨hi, hn⟩ := hg
  constructor
  · intro p hp
    rcases mem_setAssoc hp with rfl | hp2
    · exact hr
    · exact hi p hp2
  · cases hh : hasKey acc k
    · rw [KeysNodup, map_fst_setAssoc_fresh acc k r hh]
      rw [List.nodup_append]
      exact ⟨hn, List.nodup_singleton k,
        fun a ha hb => by
          simp at hb
          exact not_mem_keys_of_fresh acc k hh (hb ▸ ha)⟩
    · rw [KeysNodup, map_fst_setAssoc_haskey acc k r hh]
      exact hn

theorem goodAcc_updateAssoc {acc : List (String × Report)} {k : String}
    {f : Report → Report} (hid : ∀ r, (f r).id = r.id) (hg : GoodAcc acc) :
    GoodAcc (updateAssoc acc k f) := by
  obtain ⟨hi, hn⟩ := hg
  constructor
  · intro p hp
    induction acc with
    | nil => simp [updateAssoc] at hp
    | cons q t ih =>
      obtain ⟨k', v'⟩ := q
      by_cases hk : k' = k
      · rw [updateAssoc, if_pos hk] at hp
        rcases List.mem_cons.mp hp with rfl | hp2
        · rw [hid v']
          exact hi (k', v') (List.mem_cons_self _ _)
        · exact hi p (List.mem_cons_of_mem _ hp2)
      · rw [updateAssoc, if_neg hk] at hp
        rcases List.mem_cons.mp hp with rfl | hp2
        · exact hi (k', v') (List.mem_cons_self _ _)
        · exact ih (fun p2 hp2' => hi p2 (List.mem_cons_of_mem _ hp2'))
            (List.Nodup.of_cons hn) hp2
  · rw [KeysNodup, map_fst_updateAssoc]
    exact hn

/-! ### Step and transform invariants (claim C8) -/

theorem spreadTagStep_id (r : Report) (kv : String × String) (h : kv.1 ≠ "id") :
    (spreadTagStep r kv).id = r.id := by
  unfold spreadTagStep
  rw [if_neg h]
  repeat' split
  all_goals rfl

theorem spreadTags_id : ∀ (tkv : List (String × String)) (r : Report),
    (∀ kv ∈ tkv, kv.1 ≠ "id") → (spreadTags tkv r).id = r.id
  | [], _, _ => rfl
  | kv :: t, r, h => by
    have ht : (spreadTags t (spreadTagStep r kv)).id = (spreadTagStep r kv).id :=
      spreadTags_id t _ (fun u hu => h u (List.mem_cons_of_mem _ hu))
    rw [spreadTags, List.foldl_cons]
    exact ht.trans (spreadTagStep_id r kv (h kv (List.mem_cons_self _ _)))

theorem goodAcc_writeBucket (acc : List (String × Report)) (k p : String)
    (v : JsNum) (acc' : List (String × Report)) (hg : GoodAcc acc)
    (h : writeBucket acc k p v = .ok acc') : GoodAcc acc' := by
  simp only [writeBucket] at h
  split at h
  · exact Except.noConfusion h
  · split at h
    · exact Except.noConfusion h
    · cases h
      refine goodAcc_updateAssoc ?_ hg
      intro r2
      cases h2 : r2.reports <;> simp [h2]

theorem goodAcc_addBucket (acc : List (String × Report)) (k bp : String)
    (amount : JsNum) (acc' : List (String × Report)) (hg : GoodAcc acc)
    (h : addBucket acc k bp amount = .ok acc') : GoodAcc acc' := by
  simp only [addBucket] at h
  split at h
  · exact Except.noConfusion h
  · split at h
    · exact Except.noConfusion h
    · cases h
      refine goodAcc_updateAssoc ?_ hg
      intro r2
      cases h2 : r2.reports <;> simp [h2]

theorem goodAcc_awsGroupStep (n p : String) (cm tkv : List (String × String))
    (hid : ∀ kv ∈ tkv, kv.1 ≠ "id") :
    ∀ (acc : List (String × Report)) (g : AwsGroup) (acc' : List (String × Report)),
      GoodAcc acc → awsGroupStep n p cm tkv acc g = .ok acc' → GoodAcc acc' := by
  intro acc g acc' hg h
  simp only [awsGroupStep] at h
  split at h
  · exact Except.noConfusion h
  · rename_i acc1 heq
    have hga1 : GoodAcc acc1 := by
      split at heq
      · cases heq; exact hg
      · split at heq
        · exact Except.noConfusion heq
        · cases heq; exact goodAcc_setAssoc hg (spreadTags_id tkv _ hid)
    split at h
    · cases h; exact hga1
    · exact goodAcc_writeBucket _ _ _ _ _ hga1 h

theorem goodAcc_awsStep (n : String) (q : CostQuery) (cm tkv : List (String × String))
    (hid : ∀ kv ∈ tkv, kv.1 ≠ "id") :
    ∀ (acc : List (String × Report)) (row : AwsRow) (acc' : List (String × Report)),
      GoodAcc acc → awsStep n q cm tkv acc row = .ok acc' → GoodAcc acc' := by
  intro acc row acc' hg h
  simp only [awsStep] at h
  split at h
  · cases h; exact hg
  · exact foldlM_except_inv GoodAcc _ (goodAcc_awsGroupStep n _ cm tkv hid) _ acc acc' hg h

theorem goodAcc_azureStep (n : String) (q : CostQuery) (cm tkv : List (String × String))
    (hid : ∀ kv ∈ tkv, kv.1 ≠ "id") :
    ∀ (acc : List (String × Report)) (row : AzureRow) (acc' : List (String × Report)),
      GoodAcc acc → azureStep n q cm tkv acc row = .ok acc' → GoodAcc acc' := by
  intro acc row acc' hg h
  have hmat : GoodAcc (if hasKey acc (n ++ "->" ++ row.serviceName) then acc
      else setAssoc acc (n ++ "->" ++ row.serviceName) (spreadTags tkv
        { id := n ++ "->" ++ row.serviceName
          name := AZURE_PROVIDER ++ "/" ++ n
          service := azureConvertServiceName row.serviceName
          category := getCategoryByServiceName row.serviceName cm
          provider := AZURE_PROVIDER
          reports := .obj []
          extra := [] })) := by
    split
    · exact hg
    · exact goodAcc_setAssoc hg (spreadTags_id tkv _ hid)
  simp only [azureStep] at h
  split at h <;> split at h
  · cases h; exact hmat
  · split at h
    · split at h
      · exact goodAcc_writeBucket _ _ _ _ _ hmat h
      · exact Except.noConfusion h
      · exact Except.noConfusion h
    · exact goodAcc_writeBucket _ _ _ _ _ hmat h
  · cases h; exact hmat
  · split at h
    · split at h
      · exact goodAcc_writeBucket _ _ _ _ _ hmat h
      · exact Except.noConfusion h
      · exact Except.noConfusion h
    · exact goodAcc_writeBucket _ _ _ _ _ hmat h

theorem goodAcc_mongoStep (n : String) (q : CostQuery)
    (cm tkv : List (String × String)) (header : List String)
    (hid : ∀ kv ∈ tkv, kv.1 ≠ "id") :
    ∀ (acc : List (String × Report)) (line : String) (acc' : List (String × Report)),
      GoodAcc acc → mongoStep n q cm tkv header acc line = .ok acc' → GoodAcc acc' := by
  intro acc line acc' hg h
  simp only [mongoStep] at h
  split at h
  · cases h; exact hg
  · split at h
    · exact Except.noConfusion h
    · rename_i acc1 heq
      have hga1 : GoodAcc acc1 := by
        split at heq
        · cases heq; exact hg
        · split at heq
          · exact Except.noConfusion heq
          · cases heq; exact goodAcc_setAssoc hg (spreadTags_id tkv _ hid)
      split at h <;> split at h <;>
        first
          | (cases h; exact hga1)
          | exact goodAcc_addBucket _ _ _ _ _ hga1 h

theorem awsTransform_ids_nodup :
    ∀ (cfg : SubAccountConfig) (q : CostQuery) (rows : List AwsRow)
      (cm tkv : List (String × String)) (reps : List Report),
      processTags cfg.tags = .ok tkv →
      (∀ kv ∈ tkv, kv.1 ≠ "id") →
      awsTransformCostsData cfg q rows cm = .ok reps → (reps.map Report.id).Nodup := by
  intro cfg q rows cm tkv reps hpt hid h
  simp only [awsTransformCostsData] at h
  split at h
  · exact Except.noConfusion h
  · rename_i tkv2 hpt2
    rw [hpt] at hpt2
    cases hpt2
    split at h
    · exact Except.noConfusion h
    · rename_i acc hacc
      cases h
      have hgood : GoodAcc acc :=
        foldlM_except_inv GoodAcc _ (goodAcc_awsStep cfg.name q cm tkv hid) rows []
          acc ⟨by simp [IdsMatch], by simp [KeysNodup]⟩ hacc
      rw [List.map_map]
      have heq : acc.map (Report.id ∘ fun p => p.2) = acc.map Prod.fst :=
        List.map_congr_left (fun p hp => hgood.1 p hp)
      rw [heq]
      exact hgood.2

theorem azureTransform_ids_nodup :
    ∀ (cfg : SubAccountConfig) (q : CostQuery) (rows : List AzureRow)
      (cm tkv : List (String × String)) (reps : List Report),
      processTags cfg.tags = .ok tkv →
      (∀ kv ∈ tkv, kv.1 ≠ "id") →
      azureTransformCostsData cfg q rows cm = .ok reps → (reps.map Report.id).Nodup := by
  intro cfg q rows cm tkv reps hpt hid h
  simp only [azureTransformCostsData] at h
  split at h
  · exact Except.noConfusion h
  · rename_i tkv2 hpt2
    rw [hpt] at hpt2
    cases hpt2
    split at h
    · exact Except.noConfusion h
    · rename_i acc hacc
      cases h
      have hgood : GoodAcc acc :=
        foldlM_except_inv GoodAcc _ (goodAcc_azureStep cfg.name q cm tkv hid) rows []
          acc ⟨by simp [IdsMatch], by simp [KeysNodup]⟩ hacc
      rw [List.map_map]
      have heq : acc.map (Report.id ∘ fun p => p.2) = acc.map Prod.fst :=
        List.map_congr_left (fun p hp => hgood.1 p hp)
      rw [heq]
      exact hgood.2

theorem mongoTransform_ids_nodup :
    ∀ (cfg : SubAccountConfig) (q : CostQuery) (csv : String)
      (cm tkv : List (String × String)) (reps : List Report),
      processTags cfg.tags = .ok tkv →
      (∀ kv ∈ tkv, kv.1 ≠ "id") →
      mongoTransformCostsData cfg q csv cm = .ok reps → (reps.map Report.id).Nodup := by
  intro cfg q csv cm tkv reps hpt hid h
  simp only [mongoTransformCostsData] at h
  split at h
  · exact Except.noConfusion h
  · rename_i tkv2 hpt2
    rw [hpt] at hpt2
    cases hpt2
    split at h
    · exact Except.noConfusion h
    · rename_i acc hacc
      cases h
      have hgood : GoodAcc acc :=
        foldlM_except_inv GoodAcc _
          (goodAcc_mongoStep cfg.name q cm tkv (jsSplit ((jsSplit csv '\n').headD "") ',') hid)
          ((jsSplit csv '\n').drop 1) [] acc ⟨by simp [IdsMatch], by simp [KeysNodup]⟩ hacc
      rw [List.map_map]
      have heq : acc.map (Report.id ∘ fun p => p.2) = acc.map Prod.fst :=
        List.map_congr_left (fun p hp => hgood.1 p hp)
      rw [heq]
      exact hgood.2

/-- Claim C8 counterexample: the MongoAtlas grouping key does not include
the service name. Two CSV rows with distinct SKUs (`Aaa` and `Bbb`) sharing
category (both unmapped), project and cluster merge into a single `Report`
(whose `service` comes from the first row), so `id` is not unique per
distinct (account, service, dimension-tuple) combination. -/
theorem claim_C8_counterexample :
    (mongoTransformCostsData cfgProd qDaily0 mongoCsvTwoSkus []).map
        (fun l => l.map (fun r => (r.id, r.service, r.reports))) =
      .ok [("prod->Uncategorized->P1->C1", "MongoAtlas/Aaa",
            ReportsField.obj [("2024-04-05", JsNum.num 1 0), ("2024-04-06", JsNum.num 2 0)])] := rfl

/-- Claim C8 amended: whenever the configured static tags do not contain a
tag literally named `id`, each Report's `id` equals its grouping key and
the output ids of one transform call are pairwise distinct, where the key
is the account name plus the row's dimension values — the service name for
AWS (`account_service`) and Azure (`account->service`), but
category/project/cluster (not the service name) for the DB-vendor
(`account->category->project->cluster`); rows with equal keys merge into
one Report. The `id` restriction is forced by the source: the
`...tagKeyValues` spread comes after the fixed fields, so a static tag
`id:X` overwrites every materialized Report's id — the last conjunct shows
two distinct AWS service groups both emerging with id `"X"`. -/
theorem claim_C8_amended :
    (∀ (cfg : SubAccountConfig) (q : CostQuery) (rows : List AwsRow)
        (cm tkv : List (String × String)) (reps : List Report),
        processTags cfg.tags = .ok tkv →
        (∀ kv ∈ tkv, kv.1 ≠ "id") →
        awsTransformCostsData cfg q rows cm = .ok reps →
        (reps.map Report.id).Nodup) ∧
    (∀ (cfg : SubAccountConfig) (q : CostQuery) (rows : List AzureRow)
        (cm tkv : List (String × String)) (reps : List Report),
        processTags cfg.tags = .ok tkv →
        (∀ kv ∈ tkv, kv.1 ≠ "id") →
        azureTransformCostsData cfg q rows cm = .ok reps →
        (reps.map Report.id).Nodup) ∧
    (∀ (cfg : SubAccountConfig) (q : CostQuery) (csv : String)
        (cm tkv : List (String × String)) (reps : List Report),
        processTags cfg.tags = .ok tkv →
        (∀ kv ∈ tkv, kv.1 ≠ "id") →
        mongoTransformCostsData cfg q csv cm = .ok reps →
        (reps.map Report.id).Nodup) ∧
    (awsTransformCostsData cfgProd qMonthly0 [mkAwsRow "2024-04-05" "10"] []).map
        (fun l => l.map (fun r => r.id)) = .ok ["prod_SvcX"] ∧
    (azureTransformCostsData cfgProd qMonthly0
          [mkAzureRow "10" (.str "2024-04-05T00:00:00")] []).map
        (fun l => l.map (fun r => r.id)) = .ok ["prod->Svc"] ∧
    (mongoTransformCostsData cfgProd qMonthly0 mongoCsvTwoApril []).map
        (fun l => l.map (fun r => r.id)) = .ok ["prod->Uncategorized->P1->C1"] ∧
    (awsTransformCostsData cfgIdTag qMonthly0
          [mkAwsRowSvc "SvcA" "2024-04-05" "10",
           mkAwsRowSvc "SvcB" "2024-04-05" "5"] []).map
        (fun l => l.map (fun r => r.id)) = .ok ["X", "X"] :=
  ⟨awsTransform_ids_nodup, azureTransform_ids_nodup, mongoTransform_ids_nodup,
   rfl, rfl, rfl, rfl⟩

/-- Witness for claim C8 at concrete transform runs (no static tags, so the
no-`id`-tag hypothesis holds vacuously). -/
theorem claim_C8_amended_witness :
    (([awsRepFix].map Report.id).Nodup) ∧
    (([azureRepFix].map Report.id).Nodup) ∧
    (([mongoRepFix].map Report.id).Nodup) :=
  ⟨claim_C8_amended.1 cfgProd qMonthly0 [mkAwsRow "2024-04-05" "10"] [] [] [awsRepFix]
      rfl (by simp) rfl,
   claim_C8_amended.2.1 cfgProd qMonthly0
      [mkAzureRow "10" (.str "2024-04-05T00:00:00")] [] [] [azureRepFix]
      rfl (by simp) rfl,
   claim_C8_amended.2.2.1 cfgProd qMonthly0 mongoCsvTwoApril [] [] [mongoRepFix]
      rfl (by simp) rfl⟩

end InfraWallet
